import Mathlib

/-!
Verification of the Hyperlocal Air Quality Monitoring backend.

Shallow embedding of the core components of the repository:
a connection registry with broadcast (backend/api/websocket.py),
a greedy hotspot detector (backend/services/hotspot_service.py),
a grid generator (backend/services/prediction_service.py),
a 48 hour forecast engine (backend/services/forecast_service.py),
and the predictive model fallback (backend/ml/model.py).

Machine floats of the source are modelled by exact rationals; the
transcendental helpers of numpy (cos, sin, exp, sqrt) cannot be
evaluated exactly, so each occurrence is abstracted as an explicit
function parameter of the embedding, and theorems quantify over it.
-/

namespace AirQuality

/-- Identifier standing for one websocket object held by the
`ConnectionManager`; distinct Python websocket objects are never equal,
so identifiers with decidable equality model them faithfully. -/
abbrev Conn := ℕ

/-- Errors of the Python runtime that the embedded code can raise.
The repository defines no error class of its own (in particular no
`InvalidFeatureError` exists anywhere in the source tree). -/
inductive PyError where
  | valueError
  | indexError
deriving DecidableEq

namespace WS

/-- Delivery pass of `ConnectionManager.broadcast` (websocket.py lines
30 to 36): walk `active_connections` in registration order and try
`connection.send_json(message)` on each; `send c m = true` models a send
that succeeds, `false` a send that raises and is caught by the `except`
branch, which appends the connection to the local `disconnected` list.
Returns the pair (connections that received the message, `disconnected`),
both in walk order. -/
def broadcastPass {M : Type} (send : Conn → M → Bool) (m : M)
    (conns : List Conn) : List Conn × List Conn :=
  conns.foldl
    (fun acc c => if send c m then (acc.1 ++ [c], acc.2) else (acc.1, acc.2 ++ [c]))
    ([], [])

/-- Cleanup pass of `ConnectionManager.broadcast` (websocket.py lines 38
to 40): `self.active_connections.remove(connection)` for every
connection collected in `disconnected`; Python `list.remove` deletes the
first occurrence, which `List.erase` models. -/
def removeAll (conns : List Conn) (disc : List Conn) : List Conn :=
  disc.foldl (fun acc c => acc.erase c) conns

/-- Result of one `broadcast` call: the connections the message reached
and the registry (`active_connections`) left behind. -/
structure BroadcastOutcome where
  delivered : List Conn
  registry : List Conn
deriving DecidableEq

/-- The whole of `ConnectionManager.broadcast` (websocket.py lines 28 to
40): the delivery pass over the registry followed by removal of every
connection whose send raised. -/
def broadcast {M : Type} (send : Conn → M → Bool) (m : M)
    (conns : List Conn) : BroadcastOutcome :=
  { delivered := (broadcastPass send m conns).1
    registry := removeAll conns (broadcastPass send m conns).2 }

/-- Embedding of `ConnectionManager.disconnect` (websocket.py lines 19
to 22): `self.active_connections.remove(websocket)`. Python `list.remove`
removes the first occurrence of the element and raises `ValueError` when
the element is absent. -/
def disconnect (conns : List Conn) (c : Conn) : Except PyError (List Conn) :=
  if c ∈ conns then Except.ok (conns.erase c) else Except.error PyError.valueError

theorem broadcastPass_aux {M : Type} (send : Conn → M → Bool) (m : M)
    (conns : List Conn) (d x : List Conn) :
    conns.foldl
      (fun acc c => if send c m then (acc.1 ++ [c], acc.2) else (acc.1, acc.2 ++ [c]))
      (d, x)
    = (d ++ conns.filter (fun c => send c m),
       x ++ conns.filter (fun c => !(send c m))) := by
  induction conns generalizing d x with
  | nil => simp
  | cons a t ih =>
    by_cases h : send a m
    · simp [List.foldl_cons, h, ih]
    · simp [List.foldl_cons, h, ih]

theorem broadcastPass_eq_filter {M : Type} (send : Conn → M → Bool) (m : M)
    (conns : List Conn) :
    broadcastPass send m conns
    = (conns.filter (fun c => send c m), conns.filter (fun c => !(send c m))) := by
  have h := broadcastPass_aux send m conns [] []
  simpa [broadcastPass] using h

theorem removeAll_cons_of_not_mem (a : Conn) (l disc : List Conn)
    (h : a ∉ disc) : removeAll (a :: l) disc = a :: removeAll l disc := by
  induction disc generalizing l with
  | nil => rfl
  | cons c cs ih =>
    have hca : ¬((a == c) = true) := by
      simp only [beq_iff_eq]
      intro hac
      exact h (hac ▸ List.mem_cons_self c cs)
    have hacs : a ∉ cs := fun hm => h (List.mem_cons_of_mem c hm)
    calc removeAll (a :: l) (c :: cs)
        = removeAll ((a :: l).erase c) cs := rfl
      _ = removeAll (a :: l.erase c) cs := by rw [List.erase_cons_tail hca]
      _ = a :: removeAll (l.erase c) cs := ih (l.erase c) hacs
      _ = a :: removeAll l (c :: cs) := rfl

theorem removeAll_filter_not (p : Conn → Bool) (l : List Conn) (hnd : l.Nodup) :
    removeAll l (l.filter (fun c => !(p c))) = l.filter p := by
  induction l with
  | nil => rfl
  | cons a t ih =>
    have hat : a ∉ t := (List.nodup_cons.mp hnd).1
    have hnt : t.Nodup := (List.nodup_cons.mp hnd).2
    by_cases h : p a
    · have hfilter : (a :: t).filter (fun c => !(p c)) = t.filter (fun c => !(p c)) := by
        simp [List.filter_cons, h]
      have hnotmem : a ∉ t.filter (fun c => !(p c)) :=
        fun hm => hat (List.mem_of_mem_filter hm)
      rw [hfilter, removeAll_cons_of_not_mem a t _ hnotmem, ih hnt]
      simp [List.filter_cons, h]
    · have hfilter : (a :: t).filter (fun c => !(p c))
          = a :: t.filter (fun c => !(p c)) := by
        simp [List.filter_cons, h]
      have hstep : removeAll (a :: t) (a :: t.filter (fun c => !(p c)))
          = removeAll ((a :: t).erase a) (t.filter (fun c => !(p c))) := rfl
      rw [hfilter, hstep, List.erase_cons_head, ih hnt]
      simp [List.filter_cons, h]

theorem broadcast_registry_eq_filter {M : Type} (send : Conn → M → Bool) (m : M)
    (conns : List Conn) (hnd : conns.Nodup) :
    (broadcast send m conns).registry = conns.filter (fun c => send c m) := by
  unfold broadcast
  rw [broadcastPass_eq_filter]
  exact removeAll_filter_not (fun c => send c m) conns hnd

theorem broadcast_delivered_eq_filter {M : Type} (send : Conn → M → Bool) (m : M)
    (conns : List Conn) :
    (broadcast send m conns).delivered = conns.filter (fun c => send c m) := by
  unfold broadcast
  rw [broadcastPass_eq_filter]

/-- C1: for every registry of distinct open connections and every message,
`ConnectionManager.broadcast` attempts delivery to each connection in
registration order; a raising send does not abort delivery to the others
(the delivered connections are exactly the non raising ones, in
registration order), the registry left behind consists of exactly the
connections whose send succeeded, and a subsequent broadcast reaches
exactly those survivors and leaves them registered. -/
theorem broadcast_failure_isolation {M : Type} (send : Conn → M → Bool) (m : M)
    (conns : List Conn) (hnd : conns.Nodup) :
    (broadcast send m conns).delivered = conns.filter (fun c => send c m) ∧
    (broadcast send m conns).registry = conns.filter (fun c => send c m) ∧
    (broadcast send m ((broadcast send m conns).registry)).delivered
      = (broadcast send m conns).registry ∧
    (broadcast send m ((broadcast send m conns).registry)).registry
      = (broadcast send m conns).registry := by
  have hreg := broadcast_registry_eq_filter send m conns hnd
  have hfilself : (conns.filter (fun c => send c m)).filter (fun c => send c m)
      = conns.filter (fun c => send c m) := by
    rw [List.filter_filter]
    simp
  refine ⟨broadcast_delivered_eq_filter send m conns, hreg, ?_, ?_⟩
  · rw [hreg, broadcast_delivered_eq_filter, hfilself]
  · rw [hreg, broadcast_registry_eq_filter send m _ (hnd.filter _), hfilself]

/-- Witness for C1: with registry [1, 2, 3] where only the send to
connection 2 raises, the message is delivered to 1 and 3, connection 2 is
removed from the registry, and a subsequent broadcast reaches only 1
and 3. -/
theorem broadcast_failure_isolation_witness :
    (broadcast (fun c (_ : ℕ) => decide (c ≠ 2)) 0 [1, 2, 3]).delivered = [1, 3] ∧
    (broadcast (fun c (_ : ℕ) => decide (c ≠ 2)) 0 [1, 2, 3]).registry = [1, 3] ∧
    (broadcast (fun c (_ : ℕ) => decide (c ≠ 2)) 0 [1, 3]).delivered = [1, 3] := by
  have h := broadcast_failure_isolation (fun c (_ : ℕ) => decide (c ≠ 2)) 0 [1, 2, 3]
    (by decide)
  have hfil : [1, 2, 3].filter (fun c => decide (c ≠ 2)) = [1, 3] := by decide
  have hreg : (broadcast (fun c (_ : ℕ) => decide (c ≠ 2)) 0 [1, 2, 3]).registry = [1, 3] :=
    h.2.1.trans hfil
  have hnext := h.2.2.1
  rw [hreg] at hnext
  exact ⟨h.1.trans hfil, hreg, hnext⟩

/-- C10: when no send raises during the broadcast pass, the registry is
left completely unchanged, same membership in the same registration
order, and the message is delivered to every connection. -/
theorem broadcast_all_ok_frame {M : Type} (send : Conn → M → Bool) (m : M)
    (conns : List Conn) (hall : ∀ c ∈ conns, send c m = true) :
    (broadcast send m conns).registry = conns ∧
    (broadcast send m conns).delivered = conns := by
  have hfil : conns.filter (fun c => send c m) = conns := List.filter_eq_self.mpr hall
  have hnone : conns.filter (fun c => !(send c m)) = [] := by
    rw [List.filter_eq_nil_iff]
    intro c hc
    simp [hall c hc]
  constructor
  · show removeAll conns (broadcastPass send m conns).2 = conns
    rw [broadcastPass_eq_filter]
    show removeAll conns (conns.filter (fun c => !(send c m))) = conns
    rw [hnone]
    rfl
  · rw [broadcast_delivered_eq_filter, hfil]

/-- Witness for C10: broadcasting over registry [4, 5, 6] with every send
succeeding leaves the registry unchanged and delivers to all three. -/
theorem broadcast_all_ok_frame_witness :
    (broadcast (fun _ (_ : ℕ) => true) 0 [4, 5, 6]).registry = [4, 5, 6] ∧
    (broadcast (fun _ (_ : ℕ) => true) 0 [4, 5, 6]).delivered = [4, 5, 6] :=
  broadcast_all_ok_frame (fun _ (_ : ℕ) => true) 0 [4, 5, 6] (by simp)

/-- C9 counterexample: `ConnectionManager.disconnect` on a registry that
does not hold the connection raises ValueError (Python `list.remove` on
an absent element), so removing an already absent connection is an
error, not a no-op. -/
theorem disconnect_absent_raises :
    disconnect [] 0 = Except.error PyError.valueError := rfl

/-- C9 amended: removing a present connection removes exactly that
connection (its first occurrence, here characterised on duplicate free
registries), but removing an absent connection raises ValueError rather
than being an idempotent no-op. -/
theorem disconnect_remove_semantics (conns : List Conn) (c : Conn)
    (hnd : conns.Nodup) :
    (c ∈ conns → disconnect conns c = Except.ok (conns.filter (fun x => x != c))) ∧
    (c ∉ conns → disconnect conns c = Except.error PyError.valueError) := by
  constructor
  · intro hm
    unfold disconnect
    rw [if_pos hm, List.Nodup.erase_eq_filter hnd]
  · intro hm
    unfold disconnect
    rw [if_neg hm]

/-- Witness for C9 amended: on registry [1, 2], removing 2 yields [1];
removing 5 from the empty registry raises ValueError. -/
theorem disconnect_remove_semantics_witness :
    disconnect [1, 2] 2 = Except.ok [1] ∧
    disconnect [] 5 = Except.error PyError.valueError := by
  constructor
  · have h := (disconnect_remove_semantics [1, 2] 2 (by decide)).1 (by decide)
    exact h.trans rfl
  · exact (disconnect_remove_semantics [] 5 (by decide)).2 (by decide)

end WS

/-- One scored sample point of the prediction grid, as assembled by
`PredictionService.get_full_grid` (prediction_service.py lines 66 to 72). -/
structure GridCell where
  lat : ℚ
  lon : ℚ
  aqi : ℚ
deriving DecidableEq

/-- Squared degree distance between two (lat, lon) pairs, the quantity
`(cell.lat - existing.lat)**2 + (cell.lon - existing.lon)**2` of
hotspot_service.py line 35. -/
def sqDist (p q : ℚ × ℚ) : ℚ := (p.1 - q.1) ^ 2 + (p.2 - q.2) ^ 2

theorem sqDist_comm (p q : ℚ × ℚ) : sqDist p q = sqDist q p := by
  unfold sqDist
  ring

/-- Position of a grid cell. -/
def GridCell.pos (c : GridCell) : ℚ × ℚ := (c.lat, c.lon)

namespace Hotspots

/-- One detected hotspot, as assembled by `HotspotService.get_hotspots`
(hotspot_service.py lines 41 to 48). -/
structure Hotspot where
  id : String
  lat : ℚ
  lon : ℚ
  aqi : ℚ
  radius : ℚ
deriving DecidableEq

/-- Position of a hotspot. -/
def Hotspot.pos (h : Hotspot) : ℚ × ℚ := (h.lat, h.lon)

/-- Hotspot record built from an accepted cell: id `hotspot_<n>` with `n`
the new length of the hotspot list, fixed radius of 500 meters. -/
def mkHotspot (n : ℕ) (c : GridCell) : Hotspot :=
  { id := "hotspot_" ++ toString n, lat := c.lat, lon := c.lon, aqi := c.aqi,
    radius := 500 }

/-- Greedy suppression loop of `HotspotService.get_hotspots`
(hotspot_service.py lines 28 to 49): walk the sorted cells; stop once 5
hotspots are accepted; skip a cell whose squared degree distance to some
already added cell is below 0.01; otherwise append a new hotspot and
remember the cell in `added`. -/
def hotspotLoop (sorted : List GridCell) (hotspots : List Hotspot)
    (added : List GridCell) : List Hotspot :=
  match sorted with
  | [] => hotspots
  | cell :: rest =>
    if 5 ≤ hotspots.length then hotspots
    else if added.any (fun e => decide (sqDist cell.pos e.pos < 1 / 100)) then
      hotspotLoop rest hotspots added
    else
      hotspotLoop rest (hotspots ++ [mkHotspot (hotspots.length + 1) cell])
        (added ++ [cell])

/-- Hotspot detection of `HotspotService.get_hotspots` run on a scored
grid (hotspot_service.py lines 16 to 49): keep the cells with aqi
strictly above 200, sort them by aqi descending (Python `sorted` with
`reverse=True` is stable, modelled by a stable merge sort whose order
relation puts the higher aqi first), then run the greedy suppression
loop; an empty candidate list yields no hotspots. -/
def get_hotspots (grid : List GridCell) : List Hotspot :=
  let high := grid.filter (fun cell => decide (200 < cell.aqi))
  if high.isEmpty then []
  else hotspotLoop (high.mergeSort (fun a b => decide (b.aqi ≤ a.aqi))) [] []

/-- Separation relation the detector enforces between accepted positions. -/
def farApart (p q : ℚ × ℚ) : Prop := 1 / 100 ≤ sqDist p q

theorem hotspotLoop_invariant (sorted : List GridCell) :
    ∀ (hs : List Hotspot) (ad : List GridCell),
      hs.map Hotspot.pos = ad.map GridCell.pos →
      hs.length ≤ 5 →
      List.Pairwise farApart (ad.map GridCell.pos) →
      (∀ h ∈ hs, 200 < h.aqi) →
      (∀ c ∈ sorted, 200 < c.aqi) →
      (hotspotLoop sorted hs ad).length ≤ 5 ∧
      List.Pairwise farApart ((hotspotLoop sorted hs ad).map Hotspot.pos) ∧
      (∀ h ∈ hotspotLoop sorted hs ad, 200 < h.aqi) := by
  induction sorted with
  | nil =>
    intro hs ad hmap hlen hpair haqi _
    refine ⟨hlen, ?_, haqi⟩
    rw [hotspotLoop, hmap]
    exact hpair
  | cons cell rest ih =>
    intro hs ad hmap hlen hpair haqi hsorted
    have haqicell : 200 < cell.aqi := hsorted cell (List.mem_cons_self cell rest)
    have hsortedrest : ∀ c ∈ rest, 200 < c.aqi :=
      fun c hc => hsorted c (List.mem_cons_of_mem cell hc)
    rw [hotspotLoop]
    by_cases hfull : 5 ≤ hs.length
    · rw [if_pos hfull]
      refine ⟨hlen, ?_, haqi⟩
      rw [hmap]
      exact hpair
    · rw [if_neg hfull]
      by_cases hnear : ad.any (fun e => decide (sqDist cell.pos e.pos < 1 / 100)) = true
      · rw [if_pos hnear]
        exact ih hs ad hmap hlen hpair haqi hsortedrest
      · rw [if_neg hnear]
        have hfar : ∀ e ∈ ad, farApart e.pos cell.pos := by
          intro e he
          have hne : ¬(sqDist cell.pos e.pos < 1 / 100) := by
            intro hlt
            exact hnear (List.any_eq_true.mpr ⟨e, he, by simpa using hlt⟩)
          rw [farApart, sqDist_comm]
          exact le_of_not_lt hne
        apply ih (hs ++ [mkHotspot (hs.length + 1) cell]) (ad ++ [cell])
        · rw [List.map_append, List.map_append, hmap]
          rfl
        · rw [List.length_append]
          simp only [List.length_singleton]
          omega
        · rw [List.map_append]
          rw [List.pairwise_append]
          refine ⟨hpair, by simp, ?_⟩
          intro p hp q hq
          obtain ⟨e, he, hep⟩ := List.mem_map.mp hp
          have hq2 : q = cell.pos := by simpa using hq
          rw [← hep, hq2]
          exact hfar e he
        · intro h hh
          rcases List.mem_append.mp hh with h1 | h2
          · exact haqi h h1
          · have heq : h = mkHotspot (hs.length + 1) cell := by simpa using h2
            rw [heq]
            exact haqicell
        · exact hsortedrest

theorem mem_sorted_high (grid : List GridCell) :
    ∀ c ∈ (grid.filter (fun cell => decide (200 < cell.aqi))).mergeSort
        (fun a b => decide (b.aqi ≤ a.aqi)), 200 < c.aqi := by
  intro c hc
  have hmem : c ∈ grid.filter (fun cell => decide (200 < cell.aqi)) :=
    (List.mergeSort_perm _ _).mem_iff.mp hc
  have hp := List.of_mem_filter hmem
  simpa using hp

/-- C2: for every list of scored grid cells, `HotspotService.get_hotspots`
returns at most 5 hotspots, any two distinct returned hotspots are at
squared degree distance at least 0.01 from each other, and every
returned hotspot stems from a cell with aqi strictly above 200. -/
theorem hotspot_invariants (grid : List GridCell) :
    (get_hotspots grid).length ≤ 5 ∧
    List.Pairwise (fun h1 h2 => 1 / 100 ≤ sqDist h1.pos h2.pos) (get_hotspots grid) ∧
    ∀ h ∈ get_hotspots grid, 200 < h.aqi := by
  have hmain := hotspotLoop_invariant
    ((grid.filter (fun cell => decide (200 < cell.aqi))).mergeSort
      (fun a b => decide (b.aqi ≤ a.aqi)))
    [] [] rfl (by simp) (by simp) (by simp) (mem_sorted_high grid)
  by_cases hemp : (grid.filter (fun cell => decide (200 < cell.aqi))).isEmpty
  · refine ⟨?_, ?_, ?_⟩ <;> simp [get_hotspots, hemp]
  · have hdef : get_hotspots grid
        = hotspotLoop
            ((grid.filter (fun cell => decide (200 < cell.aqi))).mergeSort
              (fun a b => decide (b.aqi ≤ a.aqi))) [] [] := by
      simp [get_hotspots, hemp]
    rw [hdef]
    refine ⟨hmain.1, ?_, hmain.2.2⟩
    have hpw := List.pairwise_map.mp hmain.2.1
    simpa [farApart] using hpw

end Hotspots

namespace Grid

/-- Exact rational model of `np.arange(a, b, s)` for step `s`: the values
`a + k * s` for `0 ≤ k < max 0 ⌈(b - a) / s⌉`; numpy produces
`ceil((stop - start) / step)` samples and none when the interval is
empty, which `Int.toNat` realises. -/
def arange (a b s : ℚ) : List ℚ :=
  (List.range (⌈(b - a) / s⌉).toNat).map (fun k : ℕ => a + (k : ℚ) * s)

/-- Bounding box of `PredictionService.get_full_grid` (prediction_service.py
lines 31 to 36): the center offset by `radius / 111` in latitude and by
`radius / (111 * cosLat)` in longitude, where `cosLat` abstracts the
float value `np.cos(np.radians(target_lat))`. -/
structure BBox where
  minLat : ℚ
  maxLat : ℚ
  minLon : ℚ
  maxLon : ℚ

/-- Bounding box construction from center, cosine factor and radius. -/
def boundingBox (lat lon cosLat r : ℚ) : BBox :=
  { minLat := lat - r / 111, maxLat := lat + r / 111,
    minLon := lon - r / (111 * cosLat), maxLon := lon + r / (111 * cosLat) }

/-- Row major lattice of `get_full_grid` (lines 38 to 43): flattening the
`np.meshgrid(lats, lons)` pair walks the longitudes in the outer loop
and the latitudes in the inner loop, yielding (lat, lon) pairs. The cell
size `s` models `self.resolution`, instance state whose default is
0.005 degrees. -/
def gridPoints (b : BBox) (s : ℚ) : List (ℚ × ℚ) :=
  (arange b.minLon b.maxLon s).flatMap
    (fun lo => (arange b.minLat b.maxLat s).map (fun la => (la, lo)))

/-- Model of `np.clip(x, lo, hi)`. -/
def clip (x lo hi : ℚ) : ℚ := min (max x lo) hi

/-- Traffic proxy `PredictionService._get_mock_traffic` (lines 107 to
110): `clip(1 / (dist_sq * 100 + 1), 0.1, 1.0)` with `dist_sq` the
squared degree distance from the center. -/
def mockTraffic (la lo clat clon : ℚ) : ℚ :=
  clip (1 / (((la - clat) ^ 2 + (lo - clon) ^ 2) * 100 + 1)) (1 / 10) 1

/-- Feature row of one grid point (lines 54 to 61): lat, lon, the wall
clock hour and day of week shared by all cells of one call, the traffic
proxy, and the constant temperature 25. -/
def featureRow (hour day clat clon : ℚ) (p : ℚ × ℚ) : List ℚ :=
  [p.1, p.2, hour, day, mockTraffic p.1 p.2 clat clon, 25]

/-- Return shape of `get_full_grid` (lines 74 to 79); the timestamp
string is not modelled. -/
structure GridResult where
  grid : List GridCell
  center : ℚ × ℚ
  count : ℕ

/-- Embedding of `PredictionService.get_full_grid` (prediction_service.py
lines 23 to 79). `score i row` abstracts entry `i` of
`self.model.predict(features)`: the model is replaceable state and its
fallback draws fresh noise for every entry, hence the index argument.
The function has no rejection path: the source contains no raise
statement and no input validation, every input produces a `GridResult`. -/
def get_full_grid (score : ℕ → List ℚ → ℚ) (hour day lat lon cosLat r s : ℚ) :
    GridResult :=
  let b := boundingBox lat lon cosLat r
  let pts := gridPoints b s
  let cells := pts.enum.map
    (fun ip => { lat := ip.2.1, lon := ip.2.2,
                 aqi := score ip.1 (featureRow hour day lat lon ip.2) : GridCell })
  { grid := cells, center := (lat, lon), count := cells.length }

theorem length_arange (a b s : ℚ) :
    (arange a b s).length = (⌈(b - a) / s⌉).toNat := by
  rw [arange, List.length_map, List.length_range]

theorem mem_arange (a b s x : ℚ) (hs : 0 < s) (hx : x ∈ arange a b s) :
    a ≤ x ∧ x < b := by
  rcases List.mem_map.mp hx with ⟨k, hk, rfl⟩
  have hklt : k < (⌈(b - a) / s⌉).toNat := by simpa using hk
  have hk1 : (k : ℤ) < ⌈(b - a) / s⌉ := by omega
  have hk2 : (k : ℚ) ≤ ((⌈(b - a) / s⌉ : ℤ) : ℚ) - 1 := by
    exact_mod_cast Int.le_sub_one_of_lt hk1
  have hceil : ((⌈(b - a) / s⌉ : ℤ) : ℚ) < (b - a) / s + 1 :=
    Int.ceil_lt_add_one ((b - a) / s)
  have hkq : (k : ℚ) < (b - a) / s := by linarith
  have hks : (k : ℚ) * s < b - a := (lt_div_iff₀ hs).mp hkq
  constructor
  · have hnn : 0 ≤ (k : ℚ) * s := mul_nonneg (Nat.cast_nonneg k) hs.le
    linarith
  · linarith

theorem arange_nil_of_nonpos (a b s : ℚ) (h : b - a ≤ 0) (hs : 0 < s) :
    arange a b s = [] := by
  have hdiv : (b - a) / s ≤ 0 := div_nonpos_of_nonpos_of_nonneg h hs.le
  have hceil : ⌈(b - a) / s⌉ ≤ 0 := Int.ceil_le.mpr (by exact_mod_cast hdiv)
  unfold arange
  have : (⌈(b - a) / s⌉).toNat = 0 := by omega
  rw [this]
  rfl

theorem length_flatMap_const {α β : Type} (l : List α) (f : α → List β) (n : ℕ)
    (h : ∀ x, (f x).length = n) : (l.flatMap f).length = l.length * n := by
  induction l with
  | nil => simp
  | cons a t ih =>
    rw [List.flatMap_cons, List.length_append, h a, ih, List.length_cons]
    ring

theorem gridPoints_length (b : BBox) (s : ℚ) :
    (gridPoints b s).length
      = (⌈(b.maxLat - b.minLat) / s⌉).toNat * (⌈(b.maxLon - b.minLon) / s⌉).toNat := by
  unfold gridPoints
  rw [length_flatMap_const _ _ ((⌈(b.maxLat - b.minLat) / s⌉).toNat)
    (fun lo => by simp [length_arange])]
  rw [length_arange]
  ring

theorem get_full_grid_count (score : ℕ → List ℚ → ℚ)
    (hour day lat lon cosLat r s : ℚ) :
    (get_full_grid score hour day lat lon cosLat r s).count
      = (⌈(2 * r / 111) / s⌉).toNat * (⌈(2 * r / (111 * cosLat)) / s⌉).toNat := by
  show ((gridPoints (boundingBox lat lon cosLat r) s).enum.map _).length = _
  rw [List.length_map, List.enum_length, gridPoints_length]
  have h1 : ((boundingBox lat lon cosLat r).maxLat
      - (boundingBox lat lon cosLat r).minLat) / s = (2 * r / 111) / s := by
    unfold boundingBox
    ring
  have h2 : ((boundingBox lat lon cosLat r).maxLon
      - (boundingBox lat lon cosLat r).minLon) / s = (2 * r / (111 * cosLat)) / s := by
    unfold boundingBox
    ring
  rw [h1, h2]

theorem get_full_grid_count_eq_length (score : ℕ → List ℚ → ℚ)
    (hour day lat lon cosLat r s : ℚ) :
    (get_full_grid score hour day lat lon cosLat r s).count
      = (get_full_grid score hour day lat lon cosLat r s).grid.length := rfl

theorem get_full_grid_mem_bounds (score : ℕ → List ℚ → ℚ)
    (hour day lat lon cosLat r s : ℚ) (hs : 0 < s) :
    ∀ c ∈ (get_full_grid score hour day lat lon cosLat r s).grid,
      (boundingBox lat lon cosLat r).minLat ≤ c.lat ∧
      c.lat ≤ (boundingBox lat lon cosLat r).maxLat ∧
      (boundingBox lat lon cosLat r).minLon ≤ c.lon ∧
      c.lon ≤ (boundingBox lat lon cosLat r).maxLon := by
  intro c hc
  rcases List.mem_map.mp hc with ⟨ip, hip, rfl⟩
  have hpt : ip.2 ∈ gridPoints (boundingBox lat lon cosLat r) s :=
    List.snd_mem_of_mem_enum hip
  rcases List.mem_flatMap.mp hpt with ⟨lo, hlo, hin⟩
  rcases List.mem_map.mp hin with ⟨la, hla, hpair⟩
  have hlab := mem_arange _ _ _ la hs hla
  have hlob := mem_arange _ _ _ lo hs hlo
  have hlat : ip.2.1 = la := by rw [← hpair]
  have hlon : ip.2.2 = lo := by rw [← hpair]
  exact ⟨by rw [hlat]; exact hlab.1, by rw [hlat]; exact hlab.2.le,
    by rw [hlon]; exact hlob.1, by rw [hlon]; exact hlob.2.le⟩

/-- C3: for every radius r > 0, cell size s > 0 and positive cosine
factor, `get_full_grid` returns exactly
`ceil((2r/111)/s) * ceil((2r/(111*cosLat))/s)` cells (the half open
lattice truncation of `np.arange`), the reported count field equals the
length of the returned cell list, and every returned cell lies inside
the computed bounding box. -/
theorem grid_count_and_bounds (score : ℕ → List ℚ → ℚ)
    (hour day lat lon cosLat r s : ℚ) (_hr : 0 < r) (_hc : 0 < cosLat) (hs : 0 < s) :
    (get_full_grid score hour day lat lon cosLat r s).count
      = (get_full_grid score hour day lat lon cosLat r s).grid.length ∧
    (get_full_grid score hour day lat lon cosLat r s).count
      = (⌈(2 * r / 111) / s⌉).toNat * (⌈(2 * r / (111 * cosLat)) / s⌉).toNat ∧
    ∀ c ∈ (get_full_grid score hour day lat lon cosLat r s).grid,
      (boundingBox lat lon cosLat r).minLat ≤ c.lat ∧
      c.lat ≤ (boundingBox lat lon cosLat r).maxLat ∧
      (boundingBox lat lon cosLat r).minLon ≤ c.lon ∧
      c.lon ≤ (boundingBox lat lon cosLat r).maxLon :=
  ⟨get_full_grid_count_eq_length score hour day lat lon cosLat r s,
   get_full_grid_count score hour day lat lon cosLat r s,
   get_full_grid_mem_bounds score hour day lat lon cosLat r s hs⟩

/-- Witness for C3: radius 1, cell size 1/200 and cosine factor 1 give a
4 by 4 lattice of 16 cells. -/
theorem grid_count_and_bounds_witness :
    (0 : ℚ) < 1 ∧ (0 : ℚ) < 1 / 200 ∧
    (get_full_grid (fun _ _ => 0) 0 0 0 0 1 1 (1 / 200)).count = 16 := by
  refine ⟨by norm_num, by norm_num, ?_⟩
  have h := (grid_count_and_bounds (fun _ _ => 0) 0 0 0 0 1 1 (1 / 200)
    (by norm_num) (by norm_num) (by norm_num)).2.1
  rw [h]
  have h1 : (⌈(2 * 1 / 111) / (1 / 200 : ℚ)⌉) = 4 := by
    rw [show ((2 * 1 / 111) / (1 / 200) : ℚ) = 400 / 111 by norm_num]
    rw [Int.ceil_eq_iff]
    norm_num
  have h2 : (⌈(2 * 1 / (111 * 1)) / (1 / 200 : ℚ)⌉) = 4 := by
    rw [show ((2 * 1 / (111 * 1)) / (1 / 200) : ℚ) = 400 / 111 by norm_num]
    rw [Int.ceil_eq_iff]
    norm_num
  rw [h1, h2]
  rfl

theorem scenario_count_aux (c : ℚ) (h1 : 17 / 20 ≤ c) (h2 : c ≤ 9 / 10) :
    (⌈(2 * 1 / 111) / (5 / 1000 : ℚ)⌉).toNat
      * (⌈(2 * 1 / (111 * c)) / (5 / 1000 : ℚ)⌉).toNat = 20 := by
  have hc : (0 : ℚ) < c := by linarith
  have hlat : (⌈(2 * 1 / 111) / (5 / 1000 : ℚ)⌉) = 4 := by
    rw [show ((2 * 1 / 111) / (5 / 1000) : ℚ) = 400 / 111 by norm_num]
    rw [Int.ceil_eq_iff]
    norm_num
  have harg : ((2 * 1 / (111 * c)) / (5 / 1000) : ℚ) = 400 / (111 * c) := by
    field_simp
    ring
  have hlon : (⌈(400 / (111 * c) : ℚ)⌉) = 5 := by
    rw [Int.ceil_eq_iff]
    have hpos : (0 : ℚ) < 111 * c := by positivity
    constructor
    · rw [show ((5 : ℤ) : ℚ) - 1 = 4 by norm_num, lt_div_iff₀ hpos]
      linarith
    · rw [show ((5 : ℤ) : ℚ) = 5 by norm_num, div_le_iff₀ hpos]
      linarith
  rw [hlat, harg, hlon]
  rfl

/-- C4 counterexample: for center (28.6139, 77.2090), radius 1 km and
cell size 0.005 degrees, with cosine factor 0.877859 (the value of
cos(radians(28.6139)) to six digits; every factor in [0.85, 0.9] gives
the same count), the grid holds 20 cells, not 4. -/
theorem scenario_grid_count_not_four :
    (get_full_grid (fun _ _ => 0) 0 0 (286139 / 10000) (772090 / 10000)
      (877859 / 1000000) 1 (5 / 1000)).count = 20 ∧ (20 : ℕ) ≠ 4 := by
  constructor
  · rw [get_full_grid_count]
    exact scenario_count_aux (877859 / 1000000) (by norm_num) (by norm_num)
  · decide

/-- C4 amended: for center (28.6139, 77.2090), radius 1 km and cell size
0.005 degrees, `get_full_grid` returns exactly 20 cells, a 4 by 5
lattice under the half open interval rule (4 latitudes of span 2/111 ≈
0.01802 and 5 longitudes of span ≈ 0.02053); the count is 20 for every
cosine factor in [0.85, 0.9], an interval containing
cos(28.6139 degrees) ≈ 0.87786. -/
theorem scenario_grid_count_twenty (score : ℕ → List ℚ → ℚ) (hour day : ℚ)
    (c : ℚ) (h1 : 17 / 20 ≤ c) (h2 : c ≤ 9 / 10) :
    (get_full_grid score hour day (286139 / 10000) (772090 / 10000)
      c 1 (5 / 1000)).count = 20 := by
  rw [get_full_grid_count]
  exact scenario_count_aux c h1 h2

/-- Witness for C4 amended: at the cosine factor 0.877859 the scenario
grid has 20 cells. -/
theorem scenario_grid_count_twenty_witness :
    (17 / 20 : ℚ) ≤ 877859 / 1000000 ∧ (877859 / 1000000 : ℚ) ≤ 9 / 10 ∧
    (get_full_grid (fun _ _ => 1) 1 1 (286139 / 10000) (772090 / 10000)
      (877859 / 1000000) 1 (5 / 1000)).count = 20 :=
  ⟨by norm_num, by norm_num,
   scenario_grid_count_twenty (fun _ _ => 1) 1 1 (877859 / 1000000)
     (by norm_num) (by norm_num)⟩

theorem bbox_min_lt_max_iff (lat lon cosLat r : ℚ) (hc : 0 < cosLat) :
    ((boundingBox lat lon cosLat r).minLat < (boundingBox lat lon cosLat r).maxLat ∧
     (boundingBox lat lon cosLat r).minLon < (boundingBox lat lon cosLat r).maxLon)
      ↔ 0 < r := by
  unfold boundingBox
  simp only
  constructor
  · rintro ⟨hlt, _⟩
    linarith
  · intro hr
    have hdenom : (0 : ℚ) < 111 * cosLat := by positivity
    have hlon : 0 < r / (111 * cosLat) := div_pos hr hdenom
    have hlat : 0 < r / 111 := div_pos hr (by norm_num)
    constructor <;> linarith

theorem get_full_grid_empty_of_nonpos (score : ℕ → List ℚ → ℚ)
    (hour day lat lon cosLat r s : ℚ) (hr : r ≤ 0) (hs : 0 < s) :
    (get_full_grid score hour day lat lon cosLat r s).grid = [] ∧
    (get_full_grid score hour day lat lon cosLat r s).count = 0 := by
  have hlat : arange (boundingBox lat lon cosLat r).minLat
      (boundingBox lat lon cosLat r).maxLat s = [] := by
    apply arange_nil_of_nonpos _ _ _ _ hs
    unfold boundingBox
    simp only
    have hr111 : r / 111 ≤ 0 := div_nonpos_of_nonpos_of_nonneg hr (by norm_num)
    linarith
  have hpts : gridPoints (boundingBox lat lon cosLat r) s = [] := by
    unfold gridPoints
    rw [hlat]
    simp
  have hgrid : (get_full_grid score hour day lat lon cosLat r s).grid = [] := by
    show ((gridPoints (boundingBox lat lon cosLat r) s).enum.map _) = []
    rw [hpts]
    rfl
  refine ⟨hgrid, ?_⟩
  rw [get_full_grid_count_eq_length, hgrid]
  rfl

/-- C8 counterexample: at radius -1 the request is not rejected:
`get_full_grid` has no validation or raise path and returns a normal
result holding an empty cell list with count 0, while the bounding box
violates min < max on the latitude axis (maxLat < minLat). -/
theorem radius_negative_not_rejected :
    (get_full_grid (fun _ _ => 0) 0 0 0 0 1 (-1) (1 / 200)).grid = [] ∧
    (get_full_grid (fun _ _ => 0) 0 0 0 0 1 (-1) (1 / 200)).count = 0 ∧
    (boundingBox 0 0 1 (-1)).maxLat < (boundingBox 0 0 1 (-1)).minLat := by
  have h := get_full_grid_empty_of_nonpos (fun _ _ => 0) 0 0 0 0 1 (-1) (1 / 200)
    (by norm_num) (by norm_num)
  refine ⟨h.1, h.2, ?_⟩
  unfold boundingBox
  norm_num

/-- C8 amended: the bounding box satisfies min < max on both axes exactly
when the radius is positive (for a positive cosine factor); a request
with radius ≤ 0 is not rejected and not coerced: `get_full_grid` has no
validation or raise path and returns a normal result whose cell list is
empty with count 0. -/
theorem degenerate_radius_silent_empty (score : ℕ → List ℚ → ℚ)
    (hour day lat lon cosLat r s : ℚ) (hc : 0 < cosLat) (hs : 0 < s) :
    (r ≤ 0 →
      (get_full_grid score hour day lat lon cosLat r s).grid = [] ∧
      (get_full_grid score hour day lat lon cosLat r s).count = 0) ∧
    (((boundingBox lat lon cosLat r).minLat < (boundingBox lat lon cosLat r).maxLat ∧
      (boundingBox lat lon cosLat r).minLon < (boundingBox lat lon cosLat r).maxLon)
      ↔ 0 < r) :=
  ⟨fun hr => get_full_grid_empty_of_nonpos score hour day lat lon cosLat r s hr hs,
   bbox_min_lt_max_iff lat lon cosLat r hc⟩

/-- Witness for C8 amended: at radius -1, cosine factor 1 and cell size
1/200 the returned grid is empty with count 0. -/
theorem degenerate_radius_silent_empty_witness :
    (0 : ℚ) < 1 ∧ (0 : ℚ) < 1 / 200 ∧ (-1 : ℚ) ≤ 0 ∧
    (get_full_grid (fun _ _ => 1) 1 1 2 3 1 (-1) (1 / 200)).grid = [] ∧
    (get_full_grid (fun _ _ => 1) 1 1 2 3 1 (-1) (1 / 200)).count = 0 := by
  have h := (degenerate_radius_silent_empty (fun _ _ => 1) 1 1 2 3 1 (-1) (1 / 200)
    (by norm_num) (by norm_num)).1 (by norm_num)
  exact ⟨by norm_num, by norm_num, by norm_num, h.1, h.2⟩

end Grid

namespace Forecast

/-- Rounding to one decimal place, modelling Python `round(x, 1)`.
Mathlib `round` rounds halves up while Python floats round halves to
even; no property below depends on the half way tie. -/
def round1 (q : ℚ) : ℚ := ((round (q * 10) : ℤ) : ℚ) / 10

/-- Traffic estimate `ForecastService._estimate_traffic`
(forecast_service.py lines 115 to 134): weekend base 0.6, weekday base
1.0, multiplied by 1.5 in [7, 10), 1.6 in [17, 21), 0.3 at night
(hour ≥ 22 or hour < 6), 0.8 otherwise. -/
def estimate_traffic (hour day : ℤ) : ℚ :=
  let base : ℚ := if 5 ≤ day then 6 / 10 else 1
  if 7 ≤ hour ∧ hour < 10 then base * (15 / 10)
  else if 17 ≤ hour ∧ hour < 21 then base * (16 / 10)
  else if 22 ≤ hour ∨ hour < 6 then base * (3 / 10)
  else base * (8 / 10)

/-- Temperature estimate `ForecastService._estimate_temperature` (lines
136 to 142): `20 + 10 * sin((hour - 6) * pi / 12)`; `sinPi x` abstracts
the float value of `sin(pi * x)`, applied here to `(hour - 6) / 12`. -/
def estimate_temperature (sinPi : ℚ → ℚ) (hour : ℤ) : ℚ :=
  20 + 10 * sinPi (((hour : ℚ) - 6) / 12)

/-- AQI category breakpoints `ForecastService._get_category` (lines 144
to 157). -/
def get_category (aqi : ℚ) : String :=
  if aqi ≤ 50 then "Good"
  else if aqi ≤ 100 then "Moderate"
  else if aqi ≤ 150 then "Unhealthy for Sensitive Groups"
  else if aqi ≤ 200 then "Unhealthy"
  else if aqi ≤ 300 then "Very Unhealthy"
  else "Hazardous"

/-- Traffic label `ForecastService._traffic_level` (lines 159 to 168). -/
def traffic_level (t : ℚ) : String :=
  if t < 1 / 2 then "Low"
  else if t < 1 then "Moderate"
  else if t < 14 / 10 then "High"
  else "Very High"

/-- One hourly projection assembled by `ForecastService.get_forecast`
(lines 52 to 60). Timestamps are modelled in hours; `timestamp` is the
absolute hour of the point, `hour` its hour of day, `date` its calendar
day index. -/
structure ForecastPoint where
  timestamp : ℤ
  hour : ℤ
  date : ℤ
  aqi : ℚ
  category : String
  trafficLevel : String
  temperature : ℚ
deriving DecidableEq

/-- The horizon `self.forecast_hours` set in `ForecastService.__init__`
(lines 12 to 14). -/
def forecast_hours : ℕ := 48

/-- Embedding of the point generation loop of
`ForecastService.get_forecast` (forecast_service.py lines 27 to 60):
for each hour offset h below the horizon, the absolute time is
`now + h` hours, from which the hour of day, the day of week, the
traffic and temperature proxies and the model input derive; `score h
row` abstracts `self.model.predict(features)[0]` of iteration h (the
fallback model draws fresh noise per call), and `sinPi` the sine used
by the temperature estimate. The stored aqi and temperature are rounded
to one decimal. -/
def get_forecast (score : ℕ → List ℚ → ℚ) (sinPi : ℚ → ℚ) (lat lon : ℚ)
    (now : ℤ) : List ForecastPoint :=
  (List.range forecast_hours).map (fun h : ℕ =>
    let t : ℤ := now + h
    let hr : ℤ := t % 24
    let day : ℤ := t / 24 % 7
    let traffic := estimate_traffic hr day
    let temp := estimate_temperature sinPi hr
    let aqi := round1 (score h [lat, lon, (hr : ℚ), (day : ℚ), traffic, temp])
    { timestamp := t, hour := hr, date := t / 24, aqi := aqi,
      category := get_category aqi, trafficLevel := traffic_level traffic,
      temperature := round1 temp })

/-- C5: for every location and start instant, the forecast has exactly
48 points, point h carries timestamp now + h hours for h from 0 to 47,
and the timestamps are strictly increasing. -/
theorem forecast_48_strictly_increasing (score : ℕ → List ℚ → ℚ)
    (sinPi : ℚ → ℚ) (lat lon : ℚ) (now : ℤ) :
    (get_forecast score sinPi lat lon now).length = 48 ∧
    (get_forecast score sinPi lat lon now).map ForecastPoint.timestamp
      = (List.range 48).map (fun h : ℕ => now + (h : ℤ)) ∧
    List.Pairwise (fun p q => p.timestamp < q.timestamp)
      (get_forecast score sinPi lat lon now) := by
  refine ⟨by simp [get_forecast, forecast_hours], ?_, ?_⟩
  · show ((List.range 48).map _).map ForecastPoint.timestamp = _
    rw [List.map_map]
    rfl
  · show List.Pairwise _ ((List.range 48).map _)
    rw [List.pairwise_map]
    refine List.Pairwise.imp ?_ (List.pairwise_lt_range 48)
    intro a b hab
    show now + (a : ℤ) < now + (b : ℤ)
    omega

/-- Structured payload of one alert; the two message shapes stand for
the two f-strings of `_generate_alerts`, carrying exactly the values
interpolated there (hour and aqi of the point, or the signed rounded
aqi change). -/
inductive AlertMessage where
  | highPollution (hour : ℤ) (aqi : ℚ)
  | rapidChange (change : ℚ)
deriving DecidableEq

/-- One alert dict of `_generate_alerts` (lines 199 to 215). -/
structure Alert where
  severity : String
  time : ℤ
  message : AlertMessage
  recommendation : String
deriving DecidableEq

/-- Embedding of `ForecastService._generate_alerts` (forecast_service.py
lines 192 to 217): one list accumulator appended to by the threshold
loop over the points, then by the rapid change loop over consecutive
index pairs, then sliced to the first 10. -/
def generate_alerts (fs : List ForecastPoint) : List Alert :=
  let a1 := fs.foldl
    (fun acc f =>
      if 200 < f.aqi then
        acc ++ [{ severity := if 250 < f.aqi then "high" else "medium",
                  time := f.timestamp,
                  message := AlertMessage.highPollution f.hour f.aqi,
                  recommendation := "Avoid outdoor activities during this time" }]
      else acc) []
  let a2 := (fs.zip fs.tail).foldl
    (fun acc pq =>
      if 50 < |pq.2.aqi - pq.1.aqi| then
        acc ++ [{ severity := "medium", time := pq.2.timestamp,
                  message := AlertMessage.rapidChange (round1 (pq.2.aqi - pq.1.aqi)),
                  recommendation := "Monitor conditions closely" }]
      else acc) a1
  a2.take 10

/-- Threshold pass as the specification words it: one alert per point
with aqi above 200, in point order, severity high when aqi exceeds 250
and medium otherwise. -/
def thresholdAlerts (fs : List ForecastPoint) : List Alert :=
  (fs.filter (fun f => decide (200 < f.aqi))).map
    (fun f : ForecastPoint =>
              { severity := if 250 < f.aqi then "high" else "medium",
                time := f.timestamp,
                message := AlertMessage.highPollution f.hour f.aqi,
                recommendation := "Avoid outdoor activities during this time" })

/-- Volatility pass as the specification words it: one medium alert per
consecutive pair whose aqi difference exceeds 50 in absolute value,
timestamped at the later point and stating the signed change. -/
def volatilityAlerts (fs : List ForecastPoint) : List Alert :=
  ((fs.zip fs.tail).filter (fun pq => decide (50 < |pq.2.aqi - pq.1.aqi|))).map
    (fun pq => { severity := "medium", time := pq.2.timestamp,
                 message := AlertMessage.rapidChange (round1 (pq.2.aqi - pq.1.aqi)),
                 recommendation := "Monitor conditions closely" })

theorem foldl_append_filter_map {α β : Type} (p : α → Prop) [DecidablePred p]
    (g : α → β) (l : List α) (init : List β) :
    l.foldl (fun acc x => if p x then acc ++ [g x] else acc) init
      = init ++ (l.filter (fun x => decide (p x))).map g := by
  induction l generalizing init with
  | nil => simp
  | cons a t ih =>
    by_cases h : p a
    · simp [h, ih, List.filter_cons]
    · simp [h, ih, List.filter_cons]

/-- C6: for every point sequence, the generated alert list is the
concatenation of the threshold pass and the volatility pass, in that
order, truncated to its first 10 elements. -/
theorem alerts_two_passes_truncated (fs : List ForecastPoint) :
    generate_alerts fs = (thresholdAlerts fs ++ volatilityAlerts fs).take 10 := by
  unfold generate_alerts thresholdAlerts volatilityAlerts
  simp only [foldl_append_filter_map]
  simp

end Forecast

namespace Model

/-- Embedding of `AirQualityModel._mock_predict` (ml/model.py lines 39
to 49), the branch `predict` always takes in this repository: no trained
artifact ships with the source (`backend/ml/models/` is created empty at
init), so `self.model` is None, `load` fails and `predict` delegates
here. `expShape d2` abstracts the float value `exp(-10 * sqrt(d2))` of
the squared degree distance `d2` from the fixed reference point
(28.6, 77.2), and `noise i` the i-th draw of `np.random.normal(0, 10)`.
Rows model the rows of the rectangular feature matrix: the column reads
`features[:, 0]` and `features[:, 1]` need at least two columns and
raise IndexError otherwise. No other validation exists: the source
defines no `InvalidFeatureError` and checks neither arity nor value
finiteness. -/
def mock_predict (expShape : ℚ → ℚ) (noise : ℕ → ℚ) (features : List (List ℚ)) :
    Except PyError (List ℚ) :=
  if features.any (fun row => decide (row.length < 2)) then
    Except.error PyError.indexError
  else
    Except.ok (features.enum.map
      (fun ir =>
        150 + 100 * expShape ((ir.2.getD 0 0 - 286 / 10) ^ 2
          + (ir.2.getD 1 0 - 772 / 10) ^ 2) + noise ir.1))

/-- Embedding of `AirQualityModel.predict` (ml/model.py lines 31 to 37)
in the state of a fresh checkout: with no loadable artifact it returns
`self._mock_predict(features)`. -/
def predict (expShape : ℚ → ℚ) (noise : ℕ → ℚ) (features : List (List ℚ)) :
    Except PyError (List ℚ) :=
  mock_predict expShape noise features

/-- C7 counterexample: the malformed feature row [1, 2, 3] (arity 3, not
the 6 entries the feature pipeline produces) is scored without any
error: the source defines no `InvalidFeatureError` and `predict`
validates nothing. -/
theorem malformed_features_scored_without_error :
    (predict (fun _ => 1) (fun _ => 0) [[1, 2, 3]]).isOk = true := rfl

/-- C7 amended: fallback scoring never raises for any input whose rows
hold at least two entries, which covers every well formed six feature
vector and equally malformed vectors (wrong arity, arbitrary values);
no `InvalidFeatureError` exists in the source, and only rows with fewer
than two entries raise, with a generic IndexError from the column
read. -/
theorem predict_scoring_total (expShape : ℚ → ℚ) (noise : ℕ → ℚ)
    (features : List (List ℚ)) :
    ((∀ row ∈ features, 2 ≤ row.length) →
      (predict expShape noise features).isOk = true) ∧
    ((∃ row ∈ features, row.length < 2) →
      predict expShape noise features = Except.error PyError.indexError) := by
  constructor
  · intro h
    have hany : features.any (fun row => decide (row.length < 2)) = false := by
      rw [List.any_eq_false]
      intro row hrow
      simpa using Nat.not_lt.mpr (h row hrow)
    unfold predict mock_predict
    rw [if_neg (by simp [hany])]
    rfl
  · rintro ⟨row, hrow, hlen⟩
    have hany : features.any (fun row => decide (row.length < 2)) = true :=
      List.any_eq_true.mpr ⟨row, hrow, by simpa using hlen⟩
    unfold predict mock_predict
    rw [if_pos (by simp [hany])]

/-- Witness for C7 amended: the well formed six feature row is scored
without error. -/
theorem predict_scoring_total_witness :
    (∀ row ∈ [[(1 : ℚ), 2, 3, 4, 5, 6]], 2 ≤ row.length) ∧
    (predict (fun _ => 1) (fun _ => 0) [[(1 : ℚ), 2, 3, 4, 5, 6]]).isOk = true :=
  ⟨by simp, (predict_scoring_total (fun _ => 1) (fun _ => 0)
    [[(1 : ℚ), 2, 3, 4, 5, 6]]).1 (by simp)⟩

end Model

end AirQuality
